import Mathlib

/-!
Verification of the Mercado Livre search pipeline (`ml_api_streamlit.py`):
a fetch → exact-match filter → record projection → UI filters → sort pipeline.

Modelling conventions:
* Python strings are modelled as `List Char` (`Str`); `str.lower()` as a
  per-character `Char.toLower` map; the substring test `a in b` as `containsSub`.
* JSON/dict fields that may be absent (`dict.get`) are modelled as `Option`.
* Prices (floats in the source) are modelled as `ℚ`: only order and equality
  of already-stored values matter to the verified properties.
-/

/-- Strings of the Python program, modelled as lists of characters. -/
abbrev Str := List Char

/-- Double-quote character, the delimiter scanned by the exact-match filter. -/
def dquote : Char := Char.ofNat 34

/-- Shape of the `shipping` sub-dictionary of an API result. -/
structure Shipping where
  free_shipping : Option Bool
deriving DecidableEq

/-- Raw product record returned by the marketplace API (`results` array
element), with every field optional as Python `dict.get` sees it. -/
structure RawProduct where
  title : Option Str
  price : Option ℚ
  permalink : Option Str
  condition : Option Str
  shipping : Option Shipping
  sold_quantity : Option Int
deriving DecidableEq

/-- Display record produced by `extrair_dados_produto` (accents of the
original Portuguese column names dropped from the Lean field names). -/
structure DisplayRecord where
  nome : Option Str
  preco : Option ℚ
  link : Option Str
  condicao : Str
  freteGratis : Str
  vendidos : Int
deriving DecidableEq

instance : Inhabited DisplayRecord :=
  ⟨{ nome := none, preco := none, link := none, condicao := [],
     freteGratis := [], vendidos := 0 }⟩

/-- Python `str.lower()` restricted to the per-character simple mapping
(the inputs of interest are ASCII, where the two coincide). -/
def lowerStr (s : Str) : Str := s.map Char.toLower

/-- Boolean test that the first list is a prefix of the second. -/
def prefixOfB : Str → Str → Bool
  | [], _ => true
  | _ :: _, [] => false
  | a :: s, b :: t => a = b && prefixOfB s t

/-- Boolean substring containment `containsSub needle hay`, modelling the
Python expression `needle in hay` on strings. -/
def containsSub : Str → Str → Bool
  | n, [] => prefixOfB n []
  | n, c :: t => prefixOfB n (c :: t) || containsSub n t

/-- Split a character list at every double quote: `splitQuote s` has one part
per quote-free stretch, `k` quotes giving `k + 1` parts. -/
def splitQuote : Str → List Str
  | [] => [[]]
  | c :: rest =>
    if c = dquote then [] :: splitQuote rest
    else
      match splitQuote rest with
      | [] => [[c]]
      | h :: t => (c :: h) :: t

/-- Elements at odd positions (0-based indices 1, 3, 5, ...). -/
def oddSlots : List α → List α
  | [] => []
  | [_] => []
  | _ :: b :: rest => b :: oddSlots rest

/-- Models `re.findall` with the quoted-group pattern used by
`processar_busca_exata` (line 46): the regex pairs consecutive double quotes
left to right and captures the text between each pair, so the matches are the
odd-indexed quote-split parts, excluding a trailing part left open by an
unmatched final quote. -/
def re_findall_quoted (q : Str) : List Str :=
  oddSlots (splitQuote q).dropLast

/-- Exact-match filter `processar_busca_exata` (lines 39–58): extract the
quoted terms; with no terms return the input unchanged, otherwise keep the
products whose lowercased title contains every lowercased term. -/
def processar_busca_exata (produtos : List RawProduct) (query : Str) :
    List RawProduct :=
  let termos_exatos := re_findall_quoted query
  if termos_exatos = [] then produtos
  else
    produtos.filter (fun produto =>
      let titulo := lowerStr (produto.title.getD [])
      termos_exatos.all (fun termo => containsSub (lowerStr termo) titulo))

/-- Record projector `extrair_dados_produto` (lines 26–37). `produto.get`
with no default is an `Option` field; `produto.get('shipping', {})` defaults
the sub-dictionary, and Python truthiness of `free_shipping` holds exactly
for `some true`. -/
def extrair_dados_produto (produto : RawProduct) : DisplayRecord :=
  { nome := produto.title
    preco := produto.price
    link := produto.permalink
    condicao :=
      if produto.condition = some ("new".data) then "Novo".data else "Usado".data
    freteGratis :=
      if (produto.shipping.getD { free_shipping := none }).free_shipping = some true
      then "Sim".data else "Não".data
    vendidos := produto.sold_quantity.getD 0 }

/-- Free-shipping filter stage (lines 112–113): applied only when the
checkbox is set, keeping the rows whose column reads `"Sim"`. -/
def filtroFrete (filtro_frete : Bool) (df : List DisplayRecord) :
    List DisplayRecord :=
  if filtro_frete then df.filter (fun r => r.freteGratis = "Sim".data) else df

/-- Condition filter stage (lines 115–116): Python `if condicao:` tests the
selection list for non-emptiness, so an empty multi-select skips the
`isin` filter altogether. -/
def filtroCondicao (condicao : List Str) (df : List DisplayRecord) :
    List DisplayRecord :=
  if condicao = [] then df
  else df.filter (fun r => condicao.contains r.condicao)

/-- Filtering part of `main` (lines 83–116): exact-match filter on the raw
products, projection to display records, then the two UI filters. -/
def displayPipeline (todos_produtos : List RawProduct) (busca : Str)
    (filtro_frete : Bool) (condicao : List Str) : List DisplayRecord :=
  filtroCondicao condicao
    (filtroFrete filtro_frete
      ((processar_busca_exata todos_produtos busca).map extrair_dados_produto))

/-- Python `range(start, stop, step)` for a positive step, driven by fuel
(`stop + 1` iterations always suffice for `step ≥ 1`). -/
def pyRangeAux (stop step : Nat) : Nat → Nat → List Nat
  | _, 0 => []
  | cur, fuel + 1 =>
    if cur < stop then cur :: pyRangeAux stop step (cur + step) fuel else []

/-- Python `range(start, stop, step)` for a positive step. -/
def pyRange (start stop step : Nat) : List Nat :=
  pyRangeAux stop step start (stop + 1)

/-- Offsets visited by the fetch loop, `range(0, 500, 50)` (line 78). -/
def fetchOffsets : List Nat := pyRange 0 500 50

/-- Outcome of one HTTP page request, as the code can observe it: either the
transport raised (`requests.exceptions.RequestException` from `requests.get`)
or a response arrived with a status code and an optional `results` array. -/
inductive FetchOutcome where
  | transportError (msg : Str)
  | httpResponse (status : Nat) (results : Option (List RawProduct))
deriving DecidableEq

/-- Error statuses: `response.raise_for_status()` raises `HTTPError` (a
`RequestException`) exactly for 4xx and 5xx status codes. -/
def isErrorOutcome : FetchOutcome → Bool
  | .transportError _ => true
  | .httpResponse status _ => 400 ≤ status && status < 600

/-- Message reported through `st.error` (line 23): the fixed Portuguese
prefix followed by the stringified exception. -/
def erroMsg (detalhe : Str) : Str :=
  "Erro ao buscar produtos: ".data ++ detalhe

/-- Rendering of the `HTTPError` detail; the exact `str(e)` text of requests
is not reproduced, the model only renders the status (the theorems use no
more than that a message is reported). -/
def statusDetail (status : Nat) : Str :=
  "HTTP ".data ++ (toString status).data

/-- Fetcher `buscar_produtos_ml` (lines 7–24), as a function of the request
outcome: on a transport error or an error status the `except` branch reports
one message and returns `[]`; otherwise `data.get('results', [])`.  First
component: messages reported to the user; second: the returned page. -/
def buscar_produtos_ml (o : FetchOutcome) : List Str × List RawProduct :=
  match o with
  | .transportError m => ([erroMsg m], [])
  | .httpResponse status results =>
    if 400 ≤ status ∧ status < 600 then ([erroMsg (statusDetail status)], [])
    else ([], results.getD [])

/-- Fetch loop of `main` (lines 77–80): visit the offsets in order,
accumulating the reported messages and extending `todos_produtos`. -/
def fetchLoopAux (world : Nat → FetchOutcome) :
    List Nat → List Str × List RawProduct → List Str × List RawProduct
  | [], acc => acc
  | off :: rest, acc =>
    let page := buscar_produtos_ml (world off)
    fetchLoopAux world rest (acc.1 ++ page.1, acc.2 ++ page.2)

/-- Whole fetch phase: the loop over `fetchOffsets` starting from empty
accumulators; `world` gives the outcome of the request at each offset. -/
def fetchAll (world : Nat → FetchOutcome) : List Str × List RawProduct :=
  fetchLoopAux world fetchOffsets ([], [])

/-- Price key used by the sort comparisons; rows with a missing price never
reach a comparison (pandas masks NaN keys out first), so the `getD` default
is never consulted there. -/
def priceKey (r : DisplayRecord) : ℚ := r.preco.getD 0

/-- Comparison `sort_values` sorts by: price of one row at most that of the
other. -/
def priceLe (a b : DisplayRecord) : Prop := priceKey a ≤ priceKey b

instance : DecidableRel priceLe := fun a b =>
  inferInstanceAs (Decidable (priceKey a ≤ priceKey b))

/-- Contract-level model of `df.sort_values('Preço', ascending=...)`
(lines 119–122), following pandas `nargsort`: rows with a missing (NaN)
price are masked out and appended last; for descending order the remaining
rows are reversed, sorted ascending, and reversed again.  The argsort kind
(numpy quicksort) is modelled at the contract level by a stable insertion
sort: theorems stated with this model quantify over pairwise-distinct
prices, where every correct comparison sort produces the same list, so the
tie order — which the implementation kind leaves unspecified — never
matters.  The implementation-level tie behaviour is modelled separately by
`np_aquicksort` below. -/
def sort_values (ascending : Bool) (df : List DisplayRecord) :
    List DisplayRecord :=
  let nonNan := df.filter (fun r => r.preco.isSome)
  let nanRows := df.filter (fun r => r.preco.isNone)
  (if ascending then List.insertionSort priceLe nonNan
   else (List.insertionSort priceLe nonNan.reverse).reverse) ++ nanRows

/-! Implementation-level model of the argsort kind actually run by
`df.sort_values('Preço')`: pandas leaves `kind` at its default
`'quicksort'`, dispatching to numpy's introsort for argsort
(`aquicksort` in `npysort/quicksort.c.src`, with `SMALL_QUICKSORT = 15`,
a median-of-3 partition, a depth-limited heapsort fallback
(`aheapsort` in `npysort/heapsort.c.src`), and an insertion sort for
small ranges).  The functions below transcribe that algorithm on an
index array `t` (`tosort`) over a value array `v`; all loops are driven
by fuel large enough for every reachable execution. -/

/-- Value pointed at by sort index `i`, i.e. `v[t[i]]` (`v[*p]` in C). -/
def vAt (v : Array ℚ) (t : Array Nat) (i : Nat) : ℚ :=
  v.getD (t.getD i 0) 0

/-- Swap of two sort indices (`INTP_SWAP(*a, *b)`). -/
def swapT (t : Array Nat) (i j : Nat) : Array Nat :=
  let a := t.getD i 0
  (t.setD i (t.getD j 0)).setD j a

/-- Upward scan `do ++pi; while (v[*pi] < vp)`; returns the final `pi`. -/
def scanUp (v : Array ℚ) (t : Array Nat) (vp : ℚ) : Nat → Nat → Nat
  | i, 0 => i + 1
  | i, fuel + 1 =>
    if vAt v t (i + 1) < vp then scanUp v t vp (i + 1) fuel else i + 1

/-- Downward scan `do --pj; while (vp < v[*pj])`; returns the final `pj`. -/
def scanDown (v : Array ℚ) (t : Array Nat) (vp : ℚ) : Nat → Nat → Nat
  | j, 0 => j - 1
  | j, fuel + 1 =>
    if vp < vAt v t (j - 1) then scanDown v t vp (j - 1) fuel else j - 1

/-- Partition exchange loop of `aquicksort`: scan both ways, stop when the
cursors cross (`pi >= pj`), otherwise swap and continue.  Returns the
array and the final `pi`. -/
def partLoop (v : Array ℚ) (vp : ℚ) :
    Nat → Array Nat → Nat → Nat → Array Nat × Nat
  | 0, t, i, _ => (t, i)
  | fuel + 1, t, i, j =>
    let i' := scanUp v t vp i t.size
    let j' := scanDown v t vp j t.size
    if j' ≤ i' then (t, i')
    else partLoop v vp fuel (swapT t i' j') i' j'

/-- Inner shift of the insertion sort: `while (pj > pl && vp < v[*pk])`
move the hole left, then drop `vi` into it. -/
def insShift (v : Array ℚ) (vp : ℚ) (vi pl : Nat) :
    Nat → Nat → Array Nat → Array Nat
  | 0, pj, t => t.setD pj vi
  | fuel + 1, pj, t =>
    if pl < pj ∧ vp < vAt v t (pj - 1) then
      insShift v vp vi pl fuel (pj - 1) (t.setD pj (t.getD (pj - 1) 0))
    else t.setD pj vi

/-- Insertion sort pass over `t[pl..pr]` (`for (pi = pl + 1; pi <= pr; ..)`
of `aquicksort`). -/
def insertRangeAux (v : Array ℚ) (pl pr : Nat) :
    Nat → Nat → Array Nat → Array Nat
  | 0, _, t => t
  | fuel + 1, i, t =>
    if i ≤ pr then
      let vi := t.getD i 0
      insertRangeAux v pl pr fuel (i + 1) (insShift v (v.getD vi 0) vi pl i i t)
    else t

/-- Insertion sort over the index range `[pl, pr]`. -/
def insertRange (v : Array ℚ) (t : Array Nat) (pl pr : Nat) : Array Nat :=
  insertRangeAux v pl pr (pr + 1) (pl + 1) t

/-- One-based access into the heap region starting at `pl`
(`a = tosort - 1` in C, so `a[k]` is `tosort[k-1]` of the subrange). -/
def haGet (t : Array Nat) (pl k : Nat) : Nat := t.getD (pl + k - 1) 0

/-- One-based store into the heap region starting at `pl`. -/
def haSet (t : Array Nat) (pl k x : Nat) : Array Nat := t.setD (pl + k - 1) x

/-- Sift-down loop shared by both phases of `aheapsort`
(`for (i = l, j = l * 2; j <= n;) ...; a[i] = tmp`). -/
def siftDown (v : Array ℚ) (pl tmp n : Nat) :
    Nat → Nat → Nat → Array Nat → Array Nat
  | 0, i, _, t => haSet t pl i tmp
  | fuel + 1, i, j, t =>
    if j ≤ n then
      let j :=
        if j < n ∧ v.getD (haGet t pl j) 0 < v.getD (haGet t pl (j + 1)) 0
        then j + 1 else j
      if v.getD tmp 0 < v.getD (haGet t pl j) 0 then
        siftDown v pl tmp n fuel j (2 * j) (haSet t pl i (haGet t pl j))
      else haSet t pl i tmp
    else haSet t pl i tmp

/-- Heap construction phase of `aheapsort`, `l` running from `n / 2` down
to 1. -/
def heapBuild (v : Array ℚ) (pl n : Nat) : Nat → Array Nat → Array Nat
  | 0, t => t
  | l + 1, t =>
    heapBuild v pl n l
      (siftDown v pl (haGet t pl (l + 1)) n (n + 1) (l + 1) (2 * (l + 1)) t)

/-- Extraction phase of `aheapsort` (`for (; n > 1;) ...`). -/
def heapExtract (v : Array ℚ) (pl : Nat) : Nat → Nat → Array Nat → Array Nat
  | 0, _, t => t
  | fuel + 1, n, t =>
    if 1 < n then
      let tmp := haGet t pl n
      let t := haSet t pl n (haGet t pl 1)
      heapExtract v pl fuel (n - 1) (siftDown v pl tmp (n - 1) n 1 2 t)
    else t

/-- `aheapsort` on the index subrange `[pl, pr]`, the depth-limit fallback
of `aquicksort`. -/
def aheapsortRange (v : Array ℚ) (t : Array Nat) (pl pr : Nat) : Array Nat :=
  let n := pr + 1 - pl
  heapExtract v pl (n + 1) n (heapBuild v pl n (n / 2) t)

/-- Main loop of numpy `aquicksort`: partition while the range holds more
than `SMALL_QUICKSORT = 15` elements (median-of-3 pivot, exchange loop,
larger side pushed on the explicit stack), fall back to heapsort when the
depth budget is spent, and finish small ranges with insertion sort before
popping the stack. -/
def goQS (v : Array ℚ) :
    Nat → Array Nat → Nat → Nat → Int → List (Nat × Nat) → Array Nat
  | 0, t, _, _, _, _ => t
  | fuel + 1, t, pl, pr, depth, stack =>
    if 15 < pr - pl then
      if depth < 0 then
        let t := aheapsortRange v t pl pr
        match stack with
        | [] => t
        | (a, b) :: rest => goQS v fuel t a b depth rest
      else
        let pm := pl + (pr - pl) / 2
        let t := if vAt v t pm < vAt v t pl then swapT t pm pl else t
        let t := if vAt v t pr < vAt v t pm then swapT t pr pm else t
        let t := if vAt v t pm < vAt v t pl then swapT t pm pl else t
        let vp := vAt v t pm
        let t := swapT t pm (pr - 1)
        let res := partLoop v vp (pr + 1) t pl (pr - 1)
        let t := swapT res.1 res.2 (pr - 1)
        let pi := res.2
        if pi - pl < pr - pi then
          goQS v fuel t pl (pi - 1) (depth - 1) ((pi + 1, pr) :: stack)
        else
          goQS v fuel t (pi + 1) pr (depth - 1) ((pl, pi - 1) :: stack)
    else
      let t := insertRange v t pl pr
      match stack with
      | [] => t
      | (a, b) :: rest => goQS v fuel t a b depth rest

/-- numpy argsort with the default `kind='quicksort'`: introsort over the
index array `arange(n)`, depth budget `2 * npy_get_msb(n)`. -/
def np_aquicksort (v : Array ℚ) : Array Nat :=
  if v.size = 0 then #[]
  else
    goQS v (2 * v.size + 2) (Array.range v.size) 0 (v.size - 1)
      (2 * (Nat.log2 v.size : Int)) []

/-- Implementation-level model of pandas `nargsort` for one column:
missing (NaN) keys masked out and appended last (`na_position='last'`);
for descending order the values and their indices are reversed before the
argsort and the indexer reversed after it. -/
def nargsort_np (ascending : Bool) (vals : List (Option ℚ)) : List Nat :=
  let idx := List.range vals.length
  let nonNanIdx := idx.filter (fun i => (vals.getD i none).isSome)
  let nanIdx := idx.filter (fun i => (vals.getD i none).isNone)
  let nonNanVals := vals.filterMap id
  let nnV := if ascending then nonNanVals else nonNanVals.reverse
  let nnI := if ascending then nonNanIdx else nonNanIdx.reverse
  let order := (np_aquicksort (Array.mk nnV)).toList
  let indexer := order.map (fun k => nnI.getD k 0)
  (if ascending then indexer else indexer.reverse) ++ nanIdx

/-- Implementation-level model of `df.sort_values('Preço', ascending=...)`:
apply the `nargsort` indexer to the rows. -/
def sort_values_np (ascending : Bool) (df : List DisplayRecord) :
    List DisplayRecord :=
  (nargsort_np ascending (df.map (fun r => r.preco))).map
    (fun i => df.getD i default)

/-- Sample raw product with a title and a price, used as concrete input of
witnesses and counterexamples. -/
def mkRaw (title : Str) (price : ℚ) : RawProduct :=
  { title := some title, price := some price, permalink := none,
    condition := some ("new".data), shipping := none, sold_quantity := none }

/-- Length of each filter stage never exceeds its input length. -/
theorem processar_busca_exata_length_le (produtos : List RawProduct)
    (query : Str) :
    (processar_busca_exata produtos query).length ≤ produtos.length := by
  unfold processar_busca_exata
  dsimp only
  split
  · exact Nat.le_refl _
  · exact List.length_filter_le _ _

/-- The free-shipping stage never adds records. -/
theorem filtroFrete_length_le (b : Bool) (df : List DisplayRecord) :
    (filtroFrete b df).length ≤ df.length := by
  unfold filtroFrete
  split
  · exact List.length_filter_le _ _
  · exact Nat.le_refl _

/-- The condition stage never adds records. -/
theorem filtroCondicao_length_le (c : List Str) (df : List DisplayRecord) :
    (filtroCondicao c df).length ≤ df.length := by
  unfold filtroCondicao
  split
  · exact Nat.le_refl _
  · exact List.length_filter_le _ _

/-- Claim C1, as stated, is false on the code: `if condicao:` (line 115)
skips the `isin` filter whenever the selection is empty, so an empty
condition selection acts as "no filter" rather than filtering everything
out.  Here one fetched product with no quoted terms, free-shipping box
unchecked, and an empty condition selection is still displayed. -/
theorem c1_empty_selection_keeps_records :
    (displayPipeline [mkRaw ("Notebook Dell".data) 10] ("notebook".data)
        false []).length ≠ 0 := by
  decide

/-- Claim C1 (amended): applying the condition filter with an empty selected
set leaves the record set unchanged — the empty selection is treated as
"no filter", not as "filter everything out". -/
theorem c1_empty_selection_is_no_filter (df : List DisplayRecord) :
    filtroCondicao [] df = df := by
  simp [filtroCondicao]

/-- Claim C3: on a query with no quoted terms the exact-match filter is the
identity (lines 48–49 return the input unchanged). -/
theorem c3_no_quoted_terms_identity (produtos : List RawProduct) (query : Str)
    (h : re_findall_quoted query = []) :
    processar_busca_exata produtos query = produtos := by
  unfold processar_busca_exata
  simp [h]

/-- Witness for C3 at the unquoted query `notebook dell usado`. -/
theorem c3_no_quoted_terms_identity_witness :
    re_findall_quoted ("notebook dell usado".data) = [] ∧
      processar_busca_exata [mkRaw ("Notebook Dell".data) 10]
          ("notebook dell usado".data)
        = [mkRaw ("Notebook Dell".data) 10] :=
  ⟨by decide, c3_no_quoted_terms_identity _ _ (by decide)⟩

/-- Claim C6: for every fetched raw list and every combination of the
exact-match filter, free-shipping filter and condition filter, the number of
display records is at most the number of raw products — every stage is a
filter or a one-to-one projection. -/
theorem c6_filtering_only_removes (todos_produtos : List RawProduct)
    (busca : Str) (filtro_frete : Bool) (condicao : List Str) :
    (displayPipeline todos_produtos busca filtro_frete condicao).length
      ≤ todos_produtos.length := by
  unfold displayPipeline
  calc (filtroCondicao condicao (filtroFrete filtro_frete
          ((processar_busca_exata todos_produtos busca).map
            extrair_dados_produto))).length
      ≤ (filtroFrete filtro_frete
          ((processar_busca_exata todos_produtos busca).map
            extrair_dados_produto)).length := filtroCondicao_length_le _ _
    _ ≤ ((processar_busca_exata todos_produtos busca).map
          extrair_dados_produto).length := filtroFrete_length_le _ _
    _ = (processar_busca_exata todos_produtos busca).length :=
        List.length_map _ _
    _ ≤ todos_produtos.length := processar_busca_exata_length_le _ _

/-- Claim C9: the record projector is a pure per-record mapping — the
condition column reads `Novo` exactly when the raw condition is `new` and
`Usado` otherwise, the free-shipping column reads `Sim` exactly when
`shipping.free_shipping` is `true` and `Não` otherwise (also when `shipping`
is missing), a missing `sold_quantity` defaults the sold count to 0, and the
price is passed through unguarded. -/
theorem c9_projector_field_mapping (produto : RawProduct) :
    ((extrair_dados_produto produto).condicao = "Novo".data
        ↔ produto.condition = some ("new".data)) ∧
    ((extrair_dados_produto produto).condicao = "Usado".data
        ↔ produto.condition ≠ some ("new".data)) ∧
    ((extrair_dados_produto produto).freteGratis = "Sim".data
        ↔ (produto.shipping.getD { free_shipping := none }).free_shipping
            = some true) ∧
    ((extrair_dados_produto produto).freteGratis = "Não".data
        ↔ (produto.shipping.getD { free_shipping := none }).free_shipping
            ≠ some true) ∧
    (extrair_dados_produto produto).vendidos
        = produto.sold_quantity.getD 0 ∧
    (extrair_dados_produto produto).preco = produto.price := by
  unfold extrair_dados_produto
  refine ⟨?_, ?_, ?_, ?_, rfl, rfl⟩ <;> split <;> simp_all

/-- Boolean prefix test agrees with `List.IsPrefix`. -/
theorem prefixOfB_iff (n h : Str) : prefixOfB n h = true ↔ n <+: h := by
  induction n generalizing h with
  | nil => simp [prefixOfB]
  | cons a s ih =>
    cases h with
    | nil => simp [prefixOfB]
    | cons b t => simp [prefixOfB, ih, List.cons_prefix_cons]

/-- Boolean substring test agrees with `List.IsInfix`, so the Python `in`
operator on strings is exactly infix containment of the character lists. -/
theorem containsSub_iff (n h : Str) : containsSub n h = true ↔ n <:+: h := by
  induction h with
  | nil => simp [containsSub, prefixOfB_iff]
  | cons c t ih => simp [containsSub, prefixOfB_iff, ih, List.infix_cons_iff]

/-- The empty needle is a substring of everything, as in Python. -/
theorem containsSub_nil (h : Str) : containsSub [] h = true := by
  cases h <;> simp [containsSub, prefixOfB]

/-- Claim C2: when the query has at least one quoted term, the exact-match
filter returns exactly the subsequence of products whose lowercased title
contains every lowercased extracted term as a substring — stated as a
`filter` by the infix property (which preserves input order) together with
the sublist fact. -/
theorem c2_exact_filter_keeps_all_terms (produtos : List RawProduct)
    (query : Str) (h : re_findall_quoted query ≠ []) :
    processar_busca_exata produtos query =
      produtos.filter (fun produto =>
        decide (∀ termo ∈ re_findall_quoted query,
          lowerStr termo <:+: lowerStr (produto.title.getD []))) ∧
    (processar_busca_exata produtos query).Sublist produtos := by
  constructor
  · unfold processar_busca_exata
    dsimp only
    rw [if_neg h]
    apply List.filter_congr
    intro p _
    rw [Bool.eq_iff_iff]
    simp [List.all_eq_true, containsSub_iff]
  · unfold processar_busca_exata
    dsimp only
    split
    · exact List.Sublist.refl _
    · exact List.filter_sublist _

/-- Witness for C2 at the spec's example: query `notebook "dell" "novo"`
over the three example titles keeps only `Notebook Dell Novo i5`. -/
theorem c2_exact_filter_keeps_all_terms_witness :
    re_findall_quoted ("notebook \"dell\" \"novo\"".data) ≠ [] ∧
      processar_busca_exata
          [mkRaw ("Notebook Dell Novo i5".data) 1,
           mkRaw ("Notebook HP Novo".data) 2,
           mkRaw ("Notebook Dell Usado".data) 3]
          ("notebook \"dell\" \"novo\"".data)
        = [mkRaw ("Notebook Dell Novo i5".data) 1] :=
  ⟨by decide,
    ((c2_exact_filter_keeps_all_terms
      [mkRaw ("Notebook Dell Novo i5".data) 1,
       mkRaw ("Notebook HP Novo".data) 2,
       mkRaw ("Notebook Dell Usado".data) 3]
      ("notebook \"dell\" \"novo\"".data) (by decide)).1).trans (by decide)⟩

/-- The quote-split always produces at least one part. -/
theorem splitQuote_ne_nil : ∀ s : Str, splitQuote s ≠ []
  | [] => by simp [splitQuote]
  | c :: rest => by
    unfold splitQuote
    split
    · simp
    · cases hq : splitQuote rest <;> simp [hq]

/-- A quote-free string splits into the single part it is. -/
theorem splitQuote_no_quote (s : Str) (h : ∀ c ∈ s, c ≠ dquote) :
    splitQuote s = [s] := by
  induction s with
  | nil => rfl
  | cons c rest ih =>
    have hc : c ≠ dquote := h c (by simp)
    have ih' := ih (fun x hx => h x (List.mem_cons_of_mem _ hx))
    simp [splitQuote, hc, ih']

/-- Splitting after a quote-free prefix only extends the first part. -/
theorem splitQuote_append_no_quote (a r : Str) (ha : ∀ c ∈ a, c ≠ dquote) :
    splitQuote (a ++ r)
      = (a ++ (splitQuote r).headD []) :: (splitQuote r).tail := by
  induction a with
  | nil =>
    simp only [List.nil_append]
    cases hq : splitQuote r with
    | nil => exact absurd hq (splitQuote_ne_nil r)
    | cons h t => simp
  | cons c a ih =>
    have hc : c ≠ dquote := ha c (by simp)
    have ih' := ih (fun x hx => ha x (List.mem_cons_of_mem _ hx))
    simp [splitQuote, hc, ih']

/-- A query whose only quotes are one adjacent pair yields exactly the empty
term, matching `re.findall` capturing the empty group. -/
theorem re_findall_only_empty_term (a b : Str)
    (ha : ∀ c ∈ a, c ≠ dquote) (hb : ∀ c ∈ b, c ≠ dquote) :
    re_findall_quoted (a ++ dquote :: dquote :: b) = [[]] := by
  have hsplit : splitQuote (dquote :: dquote :: b) = [[], [], b] := by
    simp [splitQuote, splitQuote_no_quote b hb]
  rw [re_findall_quoted, splitQuote_append_no_quote a _ ha, hsplit]
  simp [oddSlots]

/-- Claim C10: on a query whose only quoted content is one empty quoted term
(two adjacent double quotes), the filter extracts the empty string as the
single term; the empty string is contained in every title, so the filter
removes nothing. -/
theorem c10_empty_quoted_term_identity (produtos : List RawProduct)
    (a b : Str) (ha : ∀ c ∈ a, c ≠ dquote) (hb : ∀ c ∈ b, c ≠ dquote) :
    re_findall_quoted (a ++ dquote :: dquote :: b) = [[]] ∧
      processar_busca_exata produtos (a ++ dquote :: dquote :: b)
        = produtos := by
  have ht := re_findall_only_empty_term a b ha hb
  refine ⟨ht, ?_⟩
  unfold processar_busca_exata
  dsimp only
  rw [ht, if_neg (by simp)]
  apply List.filter_eq_self.mpr
  intro p _
  simp [lowerStr, containsSub_nil]

/-- Witness for C10 at the query `celular ""` (quoted part empty). -/
theorem c10_empty_quoted_term_identity_witness :
    (∀ c ∈ ("celular ".data), c ≠ dquote) ∧
      processar_busca_exata [mkRaw ("Notebook Dell".data) 10]
          ("celular ".data ++ dquote :: dquote :: [])
        = [mkRaw ("Notebook Dell".data) 10] :=
  ⟨by decide,
    (c10_empty_quoted_term_identity [mkRaw ("Notebook Dell".data) 10]
      ("celular ".data) [] (by decide) (by decide)).2⟩

/-- The fetch loop accumulator is the in-order concatenation of each
offset's reported messages and returned page. -/
theorem fetchLoopAux_eq (world : Nat → FetchOutcome) (offs : List Nat)
    (acc : List Str × List RawProduct) :
    fetchLoopAux world offs acc
      = (acc.1 ++ (offs.map (fun o => (buscar_produtos_ml (world o)).1)).flatten,
         acc.2 ++ (offs.map (fun o => (buscar_produtos_ml (world o)).2)).flatten)
    := by
  induction offs generalizing acc with
  | nil => simp [fetchLoopAux]
  | cons o rest ih => simp [fetchLoopAux, ih]

/-- Claim C7: a page request that fails in transport or returns an HTTP
error status is handled locally — `buscar_produtos_ml` reports exactly one
message and returns the empty page instead of propagating the exception —
and the loop still visits every offset, aggregating all pages in call
order. -/
theorem c7_fetch_error_local_recovery (world : Nat → FetchOutcome)
    (off : Nat) (h : isErrorOutcome (world off) = true) :
    (buscar_produtos_ml (world off)).2 = [] ∧
    (buscar_produtos_ml (world off)).1.length = 1 ∧
    (fetchAll world).2
      = (fetchOffsets.map (fun o => (buscar_produtos_ml (world o)).2)).flatten ∧
    (fetchAll world).1
      = (fetchOffsets.map (fun o => (buscar_produtos_ml (world o)).1)).flatten
    := by
  have hpage : (buscar_produtos_ml (world off)).2 = []
      ∧ (buscar_produtos_ml (world off)).1.length = 1 := by
    cases hw : world off with
    | transportError m => simp [buscar_produtos_ml]
    | httpResponse s r =>
      have hs : 400 ≤ s ∧ s < 600 := by
        have := h
        rw [hw] at this
        simpa [isErrorOutcome] using this
      simp [buscar_produtos_ml, hs]
  refine ⟨hpage.1, hpage.2, ?_, ?_⟩ <;>
    simp [fetchAll, fetchLoopAux_eq]

/-- World used by the C7 witness: the first page dies in transport, the
other pages respond normally. -/
def c7World : Nat → FetchOutcome := fun off =>
  if off = 0 then .transportError ("connection refused".data)
  else .httpResponse 200 (some [mkRaw ("Notebook Dell".data) 10])

/-- Witness for C7: with the first page failing, that page contributes
nothing, one message is reported for it, and the loop still aggregates all
ten pages. -/
theorem c7_fetch_error_local_recovery_witness :
    isErrorOutcome (c7World 0) = true ∧
      ((buscar_produtos_ml (c7World 0)).2 = [] ∧
       (buscar_produtos_ml (c7World 0)).1.length = 1 ∧
       (fetchAll c7World).2
         = (fetchOffsets.map
             (fun o => (buscar_produtos_ml (c7World o)).2)).flatten ∧
       (fetchAll c7World).1
         = (fetchOffsets.map
             (fun o => (buscar_produtos_ml (c7World o)).1)).flatten) :=
  ⟨by decide, c7_fetch_error_local_recovery c7World 0 (by decide)⟩

/-- Claim C8: the loop performs exactly ten calls at offsets 0, 50, ...,
450, concatenating the pages in call order with no deduplication and no
retries; when every page returns 50 records the aggregate holds exactly
500 raw products. -/
theorem c8_fetch_loop_offsets_and_count (world : Nat → FetchOutcome)
    (h : ∀ off ∈ fetchOffsets,
      (buscar_produtos_ml (world off)).2.length = 50) :
    fetchOffsets = [0, 50, 100, 150, 200, 250, 300, 350, 400, 450] ∧
    (fetchAll world).2
      = (fetchOffsets.map (fun o => (buscar_produtos_ml (world o)).2)).flatten ∧
    (fetchAll world).2.length = 500 := by
  have hexp : fetchOffsets = [0, 50, 100, 150, 200, 250, 300, 350, 400, 450]
    := by decide
  have hjoin : (fetchAll world).2
      = (fetchOffsets.map (fun o => (buscar_produtos_ml (world o)).2)).flatten
    := by simp [fetchAll, fetchLoopAux_eq]
  refine ⟨hexp, hjoin, ?_⟩
  have h0 := h 0 (by decide)
  have h50 := h 50 (by decide)
  have h100 := h 100 (by decide)
  have h150 := h 150 (by decide)
  have h200 := h 200 (by decide)
  have h250 := h 250 (by decide)
  have h300 := h 300 (by decide)
  have h350 := h 350 (by decide)
  have h400 := h 400 (by decide)
  have h450 := h 450 (by decide)
  rw [hjoin, hexp]
  simp [List.flatten, h0, h50, h100, h150, h200, h250, h300, h350, h400, h450]

/-- World used by the C8 witness: every page responds with 50 records. -/
def c8World : Nat → FetchOutcome := fun _ =>
  .httpResponse 200 (some (List.replicate 50 (mkRaw ("Notebook Dell".data) 10)))

/-- Witness for C8: ten full pages of 50 aggregate to exactly 500. -/
theorem c8_fetch_loop_offsets_and_count_witness :
    (∀ off ∈ fetchOffsets,
      (buscar_produtos_ml (c8World off)).2.length = 50) ∧
      (fetchAll c8World).2.length = 500 :=
  ⟨by decide, (c8_fetch_loop_offsets_and_count c8World (by decide)).2.2⟩

/-- Strict version of the price comparison, used to exploit distinctness. -/
def priceLt (a b : DisplayRecord) : Prop := priceKey a < priceKey b

instance : IsTotal DisplayRecord priceLe :=
  ⟨fun a b => le_total (priceKey a) (priceKey b)⟩

instance : IsTrans DisplayRecord priceLe :=
  ⟨fun _ _ _ hab hbc => le_trans hab hbc⟩

instance : IsAntisymm DisplayRecord priceLt :=
  ⟨fun _ _ hab hba => absurd hba (lt_asymm hab)⟩

/-- A nondecreasing list with pairwise-distinct price keys is strictly
increasing in the price key. -/
theorem sorted_priceLt_of_sorted_le (l : List DisplayRecord)
    (hs : List.Sorted priceLe l)
    (hne : l.Pairwise (fun a b => priceKey a ≠ priceKey b)) :
    List.Sorted priceLt l :=
  (List.Pairwise.and hs hne).imp (fun h => lt_of_le_of_ne h.1 h.2)

/-- Sorting a permutation of a pairwise-distinct-price list gives the same
list as sorting the list itself: the sorted arrangement is unique. -/
theorem insertionSort_eq_of_perm (l l' : List DisplayRecord)
    (hp : l'.Perm l)
    (hne : l.Pairwise (fun a b => priceKey a ≠ priceKey b)) :
    List.insertionSort priceLe l' = List.insertionSort priceLe l := by
  have hperm : (List.insertionSort priceLe l').Perm
      (List.insertionSort priceLe l) :=
    ((List.perm_insertionSort priceLe l').trans hp).trans
      (List.perm_insertionSort priceLe l).symm
  have hsymm : ∀ {x y : DisplayRecord},
      priceKey x ≠ priceKey y → priceKey y ≠ priceKey x :=
    fun h => h.symm
  have hne₁ : (List.insertionSort priceLe l).Pairwise
      (fun a b => priceKey a ≠ priceKey b) :=
    ((List.perm_insertionSort priceLe l).pairwise_iff hsymm).mpr hne
  have hne₂ : (List.insertionSort priceLe l').Pairwise
      (fun a b => priceKey a ≠ priceKey b) :=
    (hperm.pairwise_iff hsymm).mpr hne₁
  exact List.eq_of_perm_of_sorted hperm
    (sorted_priceLt_of_sorted_le _ (List.sorted_insertionSort priceLe l') hne₂)
    (sorted_priceLt_of_sorted_le _ (List.sorted_insertionSort priceLe l) hne₁)

/-- Claim C5: on records whose prices are all present and pairwise
distinct, sorting descending produces exactly the reverse of sorting
ascending. -/
theorem c5_sort_desc_is_reverse_of_asc (df : List DisplayRecord)
    (hsome : ∀ r ∈ df, r.preco.isSome)
    (hdist : (df.map priceKey).Pairwise (· ≠ ·)) :
    sort_values false df = (sort_values true df).reverse := by
  have hfs : df.filter (fun r => r.preco.isSome) = df :=
    List.filter_eq_self.mpr (fun r hr => hsome r hr)
  have hfn : df.filter (fun r => r.preco.isNone) = [] := by
    rw [List.filter_eq_nil_iff]
    intro r hr
    have h1 := hsome r hr
    cases hp : r.preco with
    | none => rw [hp] at h1; exact absurd h1 (by simp)
    | some q => simp [hp]
  have hne : df.Pairwise (fun a b => priceKey a ≠ priceKey b) :=
    List.pairwise_map.mp hdist
  have hkey : List.insertionSort priceLe df.reverse
      = List.insertionSort priceLe df :=
    insertionSort_eq_of_perm df df.reverse (List.reverse_perm df) hne
  unfold sort_values
  dsimp only
  rw [hfs, hfn, hkey]
  simp

/-- Rows used by witness and counterexample data of the sorting claims. -/
def mkRec (nome : Str) (preco : ℚ) : DisplayRecord :=
  { nome := some nome, preco := some preco, link := none,
    condicao := "Novo".data, freteGratis := "Não".data, vendidos := 0 }

/-- Witness for C5 on three rows with distinct prices. -/
theorem c5_sort_desc_is_reverse_of_asc_witness :
    (∀ r ∈ [mkRec ("a".data) 5, mkRec ("b".data) 3, mkRec ("c".data) 9],
        r.preco.isSome) ∧
    (([mkRec ("a".data) 5, mkRec ("b".data) 3,
        mkRec ("c".data) 9].map priceKey).Pairwise (· ≠ ·)) ∧
    sort_values false
        [mkRec ("a".data) 5, mkRec ("b".data) 3, mkRec ("c".data) 9]
      = (sort_values true
          [mkRec ("a".data) 5, mkRec ("b".data) 3,
           mkRec ("c".data) 9]).reverse :=
  ⟨by decide, by decide,
    c5_sort_desc_is_reverse_of_asc _ (by decide) (by decide)⟩

/-- Seventeen rows with one common price and pairwise-distinct names:
one more row than numpy's `SMALL_QUICKSORT` insertion-sort regime admits,
so the quicksort partition reorders the ties. -/
def c4Rows : List DisplayRecord :=
  (List.range 17).map (fun i => mkRec [Char.ofNat (65 + i)] 10)

set_option maxRecDepth 100000 in
/-- Claim C4, as stated, is false on the code: `df.sort_values('Preço')`
leaves `kind` at numpy's default `'quicksort'`, which is not stable.  On
seventeen records of equal price a stable sort would return the fetch order
unchanged, but the quicksort partition permutes them: the record named `B`
(fetch position 1) and the record named `O` (fetch position 14) have equal
prices, yet the sorted output places `O` (position 1) before `B`
(position 14). -/
theorem c4_sort_not_stable_at_17_ties :
    (∀ r ∈ c4Rows, r.preco = some 10) ∧
      sort_values_np true c4Rows ≠ c4Rows ∧
      c4Rows.indexOf (mkRec [Char.ofNat 66] 10)
          < c4Rows.indexOf (mkRec [Char.ofNat 79] 10) ∧
      (sort_values_np true c4Rows).indexOf (mkRec [Char.ofNat 79] 10)
          < (sort_values_np true c4Rows).indexOf (mkRec [Char.ofNat 66] 10)
    := by
  refine ⟨by decide, by decide, by decide, by decide⟩

set_option maxRecDepth 100000 in
/-- Claim C4 (amended): sorting by price with the code's default quicksort
kind is not stable — there are record sets whose equal-price records do not
keep their relative fetch order. -/
theorem c4_sort_by_price_unstable :
    ∃ df : List DisplayRecord, (∀ r ∈ df, r.preco = some 10) ∧
      sort_values_np true df ≠ df :=
  ⟨c4Rows, by decide, by decide⟩



